import Mathlib

/-!
Verification model of the anonymous room-based chat server (src/app.py).

The server keeps one process-wide registry `rooms = defaultdict(dict)` mapping
a room name to a dict from websocket connection to identity (nick/color).
Python dicts are insertion-ordered association lists with unique keys, so we
model them as `List (key × value)` together with lookup / item-assignment /
deletion operations that mirror dict semantics.  The `defaultdict` read
`rooms[room]` has a side effect (it inserts an empty dict when the key is
absent); we model the state effect as `ddEnsure` and the value read as `ddGet`.

Connections are opaque handles supporting `send` (which may fail) and
`receive`; we model a handle as a natural number and the outcome of the send
attempts of one broadcast as an environment-chosen predicate `fails : Conn → Bool`.
Randomness (`secrets.token_hex(2)`, `secrets.randbelow(360)`) is modelled by
passing the drawn bytes / hue as explicit parameters.
-/

namespace AnonChat

/-- A websocket connection handle (opaque; modelled by an id). -/
abbrev Conn := Nat

/-- The per-connection identity `{'nick': ..., 'color': ...}` (app.py line 215). -/
structure Identity where
  nick : String
  color : String
deriving DecidableEq, Repr

/-- One room's member dict `{ws: {nick, color}}` (app.py line 25). -/
abbrev Members := List (Conn × Identity)

/-- The process-wide registry `rooms` : room name -> member dict (app.py line 25). -/
abbrev Registry := List (String × Members)

/-- Python dict lookup `d.get(k)` / `d[k]` read: first matching key. -/
def dget {α β : Type} [DecidableEq α] : List (α × β) → α → Option β
  | [], _ => none
  | p :: l, k => if p.1 = k then some p.2 else dget l k

/-- Python dict item assignment `d[k] = v`: update in place, else append. -/
def dset {α β : Type} [DecidableEq α] : List (α × β) → α → β → List (α × β)
  | [], k, v => [(k, v)]
  | p :: l, k, v => if p.1 = k then (k, v) :: l else p :: dset l k v

/-- Python dict deletion `del d[k]`. -/
def ddel {α β : Type} [DecidableEq α] : List (α × β) → α → List (α × β)
  | [], _ => []
  | p :: l, k => if p.1 = k then ddel l k else p :: ddel l k

/-- The value read by the defaultdict access `rooms[room]`: the stored member
dict, or the empty dict when the room is absent. -/
def ddGet (reg : Registry) (room : String) : Members :=
  (dget reg room).getD []

/-- The state effect of the defaultdict access `rooms[room]`: when the room is
absent, `defaultdict(dict)` inserts an empty member dict for it. -/
def ddEnsure (reg : Registry) (room : String) : Registry :=
  match dget reg room with
  | some _ => reg
  | none => reg ++ [(room, [])]

/- ### Dictionary lemmas -/

theorem dget_dset_self {α β : Type} [DecidableEq α] (l : List (α × β)) (k : α) (v : β) :
    dget (dset l k v) k = some v := by
  induction l with
  | nil => simp [dget, dset]
  | cons p l ih =>
    by_cases h : p.1 = k
    · simp [dget, dset, h]
    · simp [dget, dset, h, ih]

theorem dget_dset_ne {α β : Type} [DecidableEq α] (l : List (α × β)) (k k' : α) (v : β)
    (h : k' ≠ k) : dget (dset l k v) k' = dget l k' := by
  have hk : ¬ k = k' := fun hh => h hh.symm
  induction l with
  | nil => simp [dget, dset, hk]
  | cons p l ih =>
    by_cases hp : p.1 = k
    · subst hp
      simp [dget, dset, hk]
    · by_cases hp' : p.1 = k'
      · simp [dget, dset, hp, hp', h]
      · simp [dget, dset, hp, hp', ih]

theorem dget_ddel_self {α β : Type} [DecidableEq α] (l : List (α × β)) (k : α) :
    dget (ddel l k) k = none := by
  induction l with
  | nil => simp [dget, ddel]
  | cons p l ih =>
    by_cases h : p.1 = k
    · simp [ddel, h, ih]
    · simp [dget, ddel, h, ih]

theorem dget_ddel_ne {α β : Type} [DecidableEq α] (l : List (α × β)) (k k' : α)
    (h : k' ≠ k) : dget (ddel l k) k' = dget l k' := by
  induction l with
  | nil => simp [ddel]
  | cons p l ih =>
    by_cases hp : p.1 = k
    · subst hp
      have hk : ¬ p.1 = k' := fun hh => h hh.symm
      simp [dget, ddel, hk, ih]
    · simp [dget, ddel, hp, ih]

theorem dget_append_some {α β : Type} [DecidableEq α] {l1 : List (α × β)} {k : α} {v : β}
    (l2 : List (α × β)) (h : dget l1 k = some v) : dget (l1 ++ l2) k = some v := by
  induction l1 with
  | nil => simp [dget] at h
  | cons p l ih =>
    by_cases hp : p.1 = k
    · simp [dget, hp] at h ⊢; exact h
    · simp [dget, hp] at h ⊢; exact ih h

theorem dget_append_none {α β : Type} [DecidableEq α] {l1 : List (α × β)} {k : α}
    (l2 : List (α × β)) (h : dget l1 k = none) : dget (l1 ++ l2) k = dget l2 k := by
  induction l1 with
  | nil => simp [dget]
  | cons p l ih =>
    by_cases hp : p.1 = k
    · simp [dget, hp] at h
    · simp [dget, hp] at h ⊢; exact ih h

theorem mem_dset_self {α β : Type} [DecidableEq α] (l : List (α × β)) (k : α) (v : β) :
    (k, v) ∈ dset l k v := by
  induction l with
  | nil => simp [dset]
  | cons p l ih =>
    by_cases h : p.1 = k
    · simp [dset, h]
    · simp [dset, h]
      right; exact ih

theorem mem_ddel {α β : Type} [DecidableEq α] {l : List (α × β)} {k : α} {p : α × β}
    (h : p ∈ ddel l k) : p.1 ≠ k ∧ p ∈ l := by
  induction l with
  | nil => simp [ddel] at h
  | cons q l ih =>
    by_cases hq : q.1 = k
    · simp [ddel, hq] at h
      rcases ih h with ⟨h1, h2⟩
      exact ⟨h1, List.mem_cons_of_mem _ h2⟩
    · simp [ddel, hq] at h
      rcases h with h | h
      · subst h; exact ⟨hq, List.mem_cons_self _ _⟩
      · rcases ih h with ⟨h1, h2⟩
        exact ⟨h1, List.mem_cons_of_mem _ h2⟩

theorem ddGet_eq_of_dget {reg : Registry} {room : String} {m : Members}
    (h : dget reg room = some m) : ddGet reg room = m := by
  simp [ddGet, h]

theorem dget_of_ddGet_ne_nil {reg : Registry} {room : String}
    (h : ddGet reg room ≠ []) : dget reg room = some (ddGet reg room) := by
  unfold ddGet at *
  cases hd : dget reg room with
  | none => simp [hd] at h
  | some m => simp [hd]

theorem ddEnsure_of_isSome {reg : Registry} {room : String}
    (h : (dget reg room).isSome) : ddEnsure reg room = reg := by
  unfold ddEnsure
  cases hd : dget reg room with
  | none => simp [hd] at h
  | some m => simp

theorem dget_ddEnsure_self (reg : Registry) (room : String) :
    dget (ddEnsure reg room) room = some (ddGet reg room) := by
  unfold ddEnsure ddGet
  cases hd : dget reg room with
  | none => simp [dget_append_none _ hd, dget]
  | some m => simp [hd]

theorem ddGet_ddEnsure (reg : Registry) (room : String) :
    ddGet (ddEnsure reg room) room = ddGet reg room := by
  rw [ddGet, dget_ddEnsure_self]
  rfl

theorem dget_ddEnsure_ne (reg : Registry) (room r : String) (h : r ≠ room) :
    dget (ddEnsure reg room) r = dget reg r := by
  unfold ddEnsure
  cases hd : dget reg room with
  | none =>
    cases hr : dget reg r with
    | none =>
      rw [dget_append_none _ hr]
      have hk : ¬ room = r := fun hh => h hh.symm
      simp [dget, hk]
    | some m => rw [dget_append_some _ hr]
  | some m => rfl

/- ### Wire values and envelopes -/

/-- A JSON value, the result type of `json.loads` on an inbound payload. -/
inductive JsonVal where
  | jnull
  | jbool (b : Bool)
  | jnum (n : Int)
  | jstr (s : String)
  | jarr (xs : List JsonVal)
  | jobj (fields : List (String × JsonVal))

/-- A server-to-client message envelope (the dicts passed to `json.dumps`).
The `text` of a chat `msg` is whatever value survived the `[:2000]` slice
(a JSON string normally, but Python also slices lists), hence `JsonVal`. -/
inductive Envelope where
  | meta (you : Identity)
  | rooms (names : List String)
  | msg (text : JsonVal) (nick color : String)
  | system (text nick color sysKind : String)

/- ### Identity generator (app.py lines 213-215) -/

/-- Lowercase hexadecimal digit character for a value below 16. -/
def hexDigit (n : Nat) : Char :=
  if n < 10 then Char.ofNat (48 + n) else Char.ofNat (87 + n)

/-- The two lowercase hex digits of one byte. -/
def hexByte (n : Nat) : List Char :=
  [hexDigit (n / 16 % 16), hexDigit (n % 16)]

/-- `secrets.token_hex(2)` applied to the two random bytes it draws. -/
def token_hex2 (b1 b2 : Nat) : String :=
  ⟨hexByte (b1 % 256) ++ hexByte (b2 % 256)⟩

/-- Identity creation: `nick = f"Anon-{secrets.token_hex(2)}"`,
`color = f"hsl({secrets.randbelow(360)} 70% 55%)"`; the random bytes and the
hue draw are explicit parameters. -/
def mkIdentity (b1 b2 hue : Nat) : Identity :=
  ⟨"Anon-" ++ token_hex2 b1 b2, "hsl(" ++ toString (hue % 360) ++ " 70% 55%)"⟩

/- ### Room listing (app.py lines 197-202) -/

/-- `GET /rooms`: `[r for r, m in rooms.items() if len(m) > 0]`. -/
def list_rooms (reg : Registry) : List String :=
  (reg.filter (fun p => decide (0 < p.2.length))).map Prod.fst

/- ### Broadcaster (app.py lines 174-189) -/

/-- One iteration of the removal sweep at the end of `broadcast`:
`if ws in rooms[room]: del rooms[room][ws]` (the membership test is a
defaultdict access `rooms[room]`). -/
def removeOne (reg : Registry) (room : String) (w : Conn) : Registry :=
  let r1 := ddEnsure reg room
  let m := ddGet r1 room
  if (dget m w).isSome then dset r1 room (ddel m w) else r1

/-- The removal sweep at the end of `broadcast`:
`for ws in to_remove: if ws in rooms[room]: del rooms[room][ws]`. -/
def removeConns (reg : Registry) (room : String) (to_remove : List Conn) : Registry :=
  to_remove.foldl (fun r w => removeOne r room w) reg

/-- Result of one `broadcast` call: the registry afterwards, the connections
whose send was attempted (in iteration order), and the successful deliveries. -/
structure BroadcastResult where
  reg : Registry
  attempts : List Conn
  sent : List (Conn × Envelope)

/-- `broadcast(room, message)`: snapshot `conns = list(rooms[room].keys())`
(a defaultdict access), attempt `send` to each, collect failing connections
into `to_remove`, and delete those from the room's member dict.  Which sends
fail is chosen by the environment through `fails`. -/
def broadcast (reg : Registry) (room : String) (message : Envelope)
    (fails : Conn → Bool) : BroadcastResult :=
  let reg1 := ddEnsure reg room
  let conns := (ddGet reg1 room).map Prod.fst
  let sent := (conns.filter (fun w => !(fails w))).map (fun w => (w, message))
  let to_remove := conns.filter fails
  let reg2 := if to_remove.isEmpty then reg1 else removeConns reg1 room to_remove
  ⟨reg2, conns, sent⟩

/- ### Session handler: join phase (app.py lines 205-228) -/

/-- Room resolution `q.get('room', 'lobby') or 'lobby'`: missing or empty
query parameter falls back to `"lobby"`. -/
def resolveRoom (q : Option String) : String :=
  match q with
  | none => "lobby"
  | some s => if s = "" then "lobby" else s

/-- Registration `rooms[room][websocket] = info` (defaultdict access, then
item assignment on the member dict). -/
def registerConn (reg : Registry) (room : String) (ws : Conn) (info : Identity) : Registry :=
  let reg1 := ddEnsure reg room
  dset reg1 room (dset (ddGet reg1 room) ws info)

/-- Result of the join phase: registry, resolved room, assigned identity, and
every envelope sent (receiver paired with envelope, in send order). -/
structure JoinResult where
  reg : Registry
  room : String
  info : Identity
  sent : List (Conn × Envelope)

/-- The join phase of `websocket_endpoint`: resolve the room, create the
identity, register, send `meta` to the new client, broadcast the join
`system` notice, then broadcast the recomputed room list.  `fj`/`fr` choose
which sends fail during the two broadcasts. -/
def joinStep (reg : Registry) (q : Option String) (ws : Conn) (b1 b2 hue : Nat)
    (fj fr : Conn → Bool) : JoinResult :=
  let room := resolveRoom q
  let info := mkIdentity b1 b2 hue
  let reg1 := registerConn reg room ws info
  let bj := broadcast reg1 room
    (.system (info.nick ++ " joined.") "System" "#666" "join") fj
  let room_list := list_rooms bj.reg
  let br := broadcast bj.reg room (.rooms room_list) fr
  ⟨br.reg, room, info, (ws, .meta info) :: (bj.sent ++ br.sent)⟩

/- ### Session handler: relay loop body (app.py lines 230-246) -/

/-- `s[:n]` on a Python string (slice by code point). -/
def strTake (s : String) (n : Nat) : String := ⟨s.data.take n⟩

/-- Python slicing `x[:2000]` as applied to `payload.get('text', '')`:
defined on strings (by code point) and lists, a `TypeError` otherwise. -/
def pySlice2000 : JsonVal → Option JsonVal
  | .jstr s => some (.jstr (strTake s 2000))
  | .jarr xs => some (.jarr (xs.take 2000))
  | _ => none

/-- Outcome of one iteration of the relay loop: either the loop continues
(`ok`, with the registry, attempted receivers and deliveries of the broadcast,
empty for ignored payloads), or an uncaught exception escapes the loop body
(`crash`), which the outer handler treats as a disconnect (cleanup runs and
the session ends). -/
inductive StepOutcome where
  | ok (reg : Registry) (attempts : List Conn) (sent : List (Conn × Envelope))
  | crash (reg : Registry)

def StepOutcome.isOk : StepOutcome → Bool
  | .ok _ _ _ => true
  | .crash _ => false

def StepOutcome.regOf : StepOutcome → Registry
  | .ok r _ _ => r
  | .crash r => r

def StepOutcome.attemptsOf : StepOutcome → List Conn
  | .ok _ a _ => a
  | .crash _ => []

def StepOutcome.sentOf : StepOutcome → List (Conn × Envelope)
  | .ok _ _ s => s
  | .crash _ => []

/-- One iteration of the relay loop, given the raw payload `data` and the
result `parsed` of `json.loads(data)` (`none` when parsing raised):
`payload = json.loads(data)` with fallback `{'type': 'msg', 'text': data}`;
then `payload.get('type')` (an `AttributeError` on non-dicts escapes the
loop), the `== 'msg'` check, `payload.get('text', '')[:2000]` (a `TypeError`
on unsliceable values escapes the loop), the sender lookup
`rooms[room].get(websocket, info)` and the `msg` broadcast. -/
def relayStep (reg : Registry) (room : String) (ws : Conn) (info : Identity)
    (data : String) (parsed : Option JsonVal) (fails : Conn → Bool) : StepOutcome :=
  let payload := match parsed with
    | none => JsonVal.jobj [("type", .jstr "msg"), ("text", .jstr data)]
    | some v => v
  match payload with
  | .jobj fields =>
    match dget fields "type" with
    | some (.jstr t) =>
      if t = "msg" then
        match pySlice2000 ((dget fields "text").getD (.jstr "")) with
        | none => .crash reg
        | some text =>
          let reg1 := ddEnsure reg room
          let sender := (dget (ddGet reg1 room) ws).getD info
          let b := broadcast reg1 room (.msg text sender.nick sender.color) fails
          .ok b.reg b.attempts b.sent
      else .ok reg [] []
    | _ => .ok reg [] []
  | _ => .crash reg

/- ### Session handler: disconnect cleanup (app.py lines 247-265) -/

/-- Result of the cleanup path: registry, envelopes sent, and whether the
final `rooms`-envelope broadcast (guarded by `if room in rooms`) ran. -/
structure CleanupResult where
  reg : Registry
  sent : List (Conn × Envelope)
  roomsBroadcastRan : Bool

/-- The `finally` cleanup: remove the departing connection from its room
(`rooms[room]` is a defaultdict access), with fallback name `'Someone'`;
delete the room when its member dict became empty; broadcast the leave
`system` notice; then, `if room in rooms`, broadcast the recomputed room
list. -/
def cleanup (reg : Registry) (room : String) (ws : Conn)
    (fl fr : Conn → Bool) : CleanupResult :=
  let reg1 := ddEnsure reg room
  let mem := ddGet reg1 room
  let left := match dget mem ws with
    | some i => i.nick
    | none => "Someone"
  let reg2 := match dget mem ws with
    | some _ => dset reg1 room (ddel mem ws)
    | none => reg1
  let reg3 := if (ddGet reg2 room).length = 0 then ddel reg2 room else reg2
  let bl := broadcast reg3 room
    (.system (left ++ " left.") "System" "#666" "leave") fl
  let room_list := list_rooms bl.reg
  if (dget bl.reg room).isSome then
    let br := broadcast bl.reg room (.rooms room_list) fr
    ⟨br.reg, bl.sent ++ br.sent, true⟩
  else
    ⟨bl.reg, bl.sent, false⟩

/-- The registry invariant asserted by the spec: every room present in the
registry has at least one member. -/
def registryInvariant (reg : Registry) : Prop :=
  ∀ p ∈ reg, p.2 ≠ []

/- ### Lemmas about the room listing -/

theorem mem_list_rooms_iff (reg : Registry) (R : String) :
    R ∈ list_rooms reg ↔ ∃ m, (R, m) ∈ reg ∧ m ≠ [] := by
  unfold list_rooms
  constructor
  · intro h
    rcases List.mem_map.mp h with ⟨p, hp, hfst⟩
    rcases List.mem_filter.mp hp with ⟨hmem, hlen⟩
    refine ⟨p.2, ?_, ?_⟩
    · rw [← hfst]; exact hmem
    · have hpos := of_decide_eq_true hlen
      exact List.ne_nil_of_length_pos hpos
  · rintro ⟨m, hm, hne⟩
    refine List.mem_map.mpr ⟨(R, m), List.mem_filter.mpr ⟨hm, ?_⟩, rfl⟩
    exact decide_eq_true (List.length_pos.mpr hne)

/- ### Lemmas about removal and broadcast -/

theorem removeOne_isSome (reg : Registry) (room : String) (w : Conn) :
    (dget (removeOne reg room w) room).isSome := by
  simp only [removeOne]
  cases hd : dget (ddGet (ddEnsure reg room) room) w with
  | none =>
    simp only [hd, Option.isSome_none, Bool.false_eq_true, if_false]
    rw [dget_ddEnsure_self]
    rfl
  | some v =>
    simp only [hd, Option.isSome_some, if_true]
    rw [dget_dset_self]
    rfl

theorem removeOne_ddGet_none (reg : Registry) (room : String) (w ws : Conn)
    (h : dget (ddGet reg room) ws = none) :
    dget (ddGet (removeOne reg room w) room) ws = none := by
  simp only [removeOne]
  cases hd : dget (ddGet (ddEnsure reg room) room) w with
  | none =>
    simp only [hd, Option.isSome_none, Bool.false_eq_true, if_false]
    rw [ddGet_ddEnsure]
    exact h
  | some v =>
    simp only [hd, Option.isSome_some, if_true]
    rw [ddGet_eq_of_dget (dget_dset_self _ _ _)]
    by_cases hws : ws = w
    · subst hws; exact dget_ddel_self _ _
    · rw [dget_ddel_ne _ _ _ hws, ddGet_ddEnsure]; exact h

theorem removeOne_removes (reg : Registry) (room : String) (w : Conn) :
    dget (ddGet (removeOne reg room w) room) w = none := by
  simp only [removeOne]
  cases hd : dget (ddGet (ddEnsure reg room) room) w with
  | none =>
    simp only [hd, Option.isSome_none, Bool.false_eq_true, if_false]
  | some v =>
    simp only [hd, Option.isSome_some, if_true]
    rw [ddGet_eq_of_dget (dget_dset_self _ _ _)]
    exact dget_ddel_self _ _

theorem removeConns_isSome (room : String) (l : List Conn) (reg : Registry)
    (h : (dget reg room).isSome) :
    (dget (removeConns reg room l) room).isSome := by
  induction l generalizing reg with
  | nil => exact h
  | cons w l ih =>
    have hstep : removeConns reg room (w :: l) = removeConns (removeOne reg room w) room l := rfl
    rw [hstep]
    exact ih _ (removeOne_isSome _ _ _)

theorem removeConns_none (room : String) (ws : Conn) (l : List Conn) (reg : Registry)
    (h : ws ∈ l ∨ dget (ddGet reg room) ws = none) :
    dget (ddGet (removeConns reg room l) room) ws = none := by
  induction l generalizing reg with
  | nil =>
    rcases h with h | h
    · exact absurd h (List.not_mem_nil _)
    · exact h
  | cons w l ih =>
    have hstep : removeConns reg room (w :: l) = removeConns (removeOne reg room w) room l := rfl
    rw [hstep]
    rcases h with h | h
    · rcases List.mem_cons.mp h with h | h
      · subst h
        exact ih _ (Or.inr (removeOne_removes _ _ _))
      · exact ih _ (Or.inl h)
    · exact ih _ (Or.inr (removeOne_ddGet_none _ _ _ _ h))

theorem broadcast_attempts (reg : Registry) (room : String) (m : Envelope)
    (f : Conn → Bool) :
    (broadcast reg room m f).attempts = (ddGet reg room).map Prod.fst := by
  simp only [broadcast]
  rw [ddGet_ddEnsure]

theorem broadcast_sent (reg : Registry) (room : String) (m : Envelope)
    (f : Conn → Bool) :
    (broadcast reg room m f).sent
      = (((ddGet reg room).map Prod.fst).filter (fun w => !(f w))).map (fun w => (w, m)) := by
  simp only [broadcast]
  rw [ddGet_ddEnsure]

theorem broadcast_sent_all (reg : Registry) (room : String) (m : Envelope)
    (f : Conn → Bool) :
    ∀ p ∈ (broadcast reg room m f).sent, p.2 = m := by
  intro p hp
  rw [broadcast_sent] at hp
  rcases List.mem_map.mp hp with ⟨w, _, hw⟩
  rw [← hw]

theorem broadcast_mem_sent (reg : Registry) (room : String) (m : Envelope)
    (f : Conn → Bool) (ws : Conn)
    (h : ws ∈ (ddGet reg room).map Prod.fst) (hf : f ws = false) :
    (ws, m) ∈ (broadcast reg room m f).sent := by
  rw [broadcast_sent]
  refine List.mem_map.mpr ⟨ws, List.mem_filter.mpr ⟨h, ?_⟩, rfl⟩
  rw [hf]
  rfl

theorem broadcast_removed (reg : Registry) (room : String) (m : Envelope)
    (f : Conn → Bool) (ws : Conn)
    (h : ws ∈ (ddGet reg room).map Prod.fst) (hf : f ws = true) :
    dget (ddGet (broadcast reg room m f).reg room) ws = none := by
  simp only [broadcast]
  have hmem : ws ∈ ((ddGet (ddEnsure reg room) room).map Prod.fst).filter f := by
    rw [ddGet_ddEnsure]
    exact List.mem_filter.mpr ⟨h, hf⟩
  have hne : ¬ (((ddGet (ddEnsure reg room) room).map Prod.fst).filter f).isEmpty = true := by
    intro hE
    rw [List.isEmpty_iff] at hE
    rw [hE] at hmem
    exact List.not_mem_nil _ hmem
  rw [if_neg hne]
  exact removeConns_none _ _ _ _ (Or.inl hmem)

theorem broadcast_reg_isSome (reg : Registry) (room : String) (m : Envelope)
    (f : Conn → Bool) :
    (dget (broadcast reg room m f).reg room).isSome := by
  simp only [broadcast]
  by_cases hE : (((ddGet (ddEnsure reg room) room).map Prod.fst).filter f).isEmpty = true
  · rw [if_pos hE, dget_ddEnsure_self]
    rfl
  · rw [if_neg hE]
    refine removeConns_isSome _ _ _ ?_
    rw [dget_ddEnsure_self]
    rfl

theorem broadcast_of_ddGet_nil (reg : Registry) (room : String) (m : Envelope)
    (f : Conn → Bool) (h : ddGet reg room = []) :
    broadcast reg room m f = ⟨ddEnsure reg room, [], []⟩ := by
  simp only [broadcast]
  rw [ddGet_ddEnsure, h]
  rfl

theorem broadcast_single (reg : Registry) (room : String) (m : Envelope)
    (f : Conn → Bool) (ws : Conn) (i : Identity)
    (h : ddGet reg room = [(ws, i)]) (hf : f ws = false) :
    broadcast reg room m f = ⟨ddEnsure reg room, [ws], [(ws, m)]⟩ := by
  simp only [broadcast]
  rw [ddGet_ddEnsure, h]
  simp [hf]

/- ### Lemmas about the cleanup path -/

theorem cleanup_ran (reg : Registry) (room : String) (ws : Conn)
    (fl fr : Conn → Bool) :
    (cleanup reg room ws fl fr).roomsBroadcastRan = true := by
  simp only [cleanup, broadcast_reg_isSome, if_true]

theorem cleanup_sole (reg : Registry) (room : String) (ws : Conn) (i : Identity)
    (fl fr : Conn → Bool) (h : ddGet reg room = [(ws, i)]) :
    cleanup reg room ws fl fr
      = ⟨ddel (dset reg room []) room ++ [(room, [])], [], true⟩ := by
  have hne : ddGet reg room ≠ [] := by rw [h]; simp
  have hs : dget reg room = some [(ws, i)] := by
    have h2 := dget_of_ddGet_ne_nil hne
    rw [h] at h2; exact h2
  have hens : ddEnsure reg room = reg := ddEnsure_of_isSome (by rw [hs]; rfl)
  have hdel0 : ddel [(ws, i)] ws = ([] : Members) := by simp [ddel]
  have hget1 : dget [(ws, i)] ws = some i := by simp [dget]
  have hlen : (ddGet (dset reg room ([] : Members)) room).length = 0 := by
    rw [ddGet_eq_of_dget (dget_dset_self _ _ _)]
    rfl
  have hnil3 : ddGet (ddel (dset reg room ([] : Members)) room) room = [] := by
    unfold ddGet
    rw [dget_ddel_self]
    rfl
  have hbl : broadcast (ddel (dset reg room ([] : Members)) room) room
      (.system (i.nick ++ " left.") "System" "#666" "leave") fl
      = ⟨ddel (dset reg room []) room ++ [(room, [])], [], []⟩ := by
    rw [broadcast_of_ddGet_nil _ _ _ _ hnil3]
    have : ddEnsure (ddel (dset reg room ([] : Members)) room) room
        = ddel (dset reg room ([] : Members)) room ++ [(room, [])] := by
      unfold ddEnsure
      rw [dget_ddel_self]
    rw [this]
  have hguard : dget (ddel (dset reg room ([] : Members)) room ++ [(room, [])]) room
      = some [] := by
    rw [dget_append_none _ (dget_ddel_self _ _)]
    simp [dget]
  have hbr : broadcast (ddel (dset reg room ([] : Members)) room ++ [(room, [])]) room
      (.rooms (list_rooms (ddel (dset reg room []) room ++ [(room, [])]))) fr
      = ⟨ddel (dset reg room []) room ++ [(room, [])], [], []⟩ := by
    have hnil4 : ddGet (ddel (dset reg room ([] : Members)) room ++ [(room, [])]) room = [] := by
      rw [ddGet_eq_of_dget hguard]
    rw [broadcast_of_ddGet_nil _ _ _ _ hnil4]
    have : ddEnsure (ddel (dset reg room ([] : Members)) room ++ [(room, [])]) room
        = ddel (dset reg room ([] : Members)) room ++ [(room, [])] :=
      ddEnsure_of_isSome (by rw [hguard]; rfl)
    rw [this]
  simp only [cleanup, hens, h, hget1, hdel0, hlen, eq_self_iff_true, if_true, hbl, hguard,
    Option.isSome_some, hbr, List.nil_append]

/- ### Claim C1 -/

/-- Claim C1 (code bug): the spec's invariant — every room name present in the
registry maps to a member mapping with at least one connection, after every
operation — is violated by the code.  Failing trace: connection 0 joins room
"a" (becoming its only member) and then disconnects; the cleanup deletes the
emptied room, but the subsequent leave-notice broadcast's defaultdict access
`rooms[room]` re-creates it, so the final registry contains the empty room
"a". -/
theorem C1_registry_invariant_violated :
    ("a", ([] : Members))
        ∈ (cleanup (joinStep [] (some "a") 0 0 0 0 (fun _ => false) (fun _ => false)).reg
            "a" 0 (fun _ => false) (fun _ => false)).reg
    ∧ ¬ registryInvariant
        (cleanup (joinStep [] (some "a") 0 0 0 0 (fun _ => false) (fun _ => false)).reg
          "a" 0 (fun _ => false) (fun _ => false)).reg := by
  constructor
  · decide
  · intro hinv
    exact hinv ("a", []) (by decide) rfl

/- ### Claim C8 -/

/-- Claim C8 (code bug): the cleanup's final rooms-envelope broadcast is
guarded by `if room in rooms`, but the preceding leave-notice broadcast always
re-creates the room entry via its defaultdict access, so the guard is true on
every input: the rooms broadcast runs even when the departing client was the
room's last member, and (second conjunct, on the concrete last-member trace)
the room is resurrected as an empty registry entry rather than staying
deleted. -/
theorem C8_rooms_guard_always_true :
    (∀ (reg : Registry) (room : String) (ws : Conn) (fl fr : Conn → Bool),
        (cleanup reg room ws fl fr).roomsBroadcastRan = true)
    ∧ dget (cleanup (joinStep [] (some "general") 0 0 0 0 (fun _ => false) (fun _ => false)).reg
          "general" 0 (fun _ => false) (fun _ => false)).reg "general" = some [] :=
  ⟨cleanup_ran, by decide⟩

/- ### Claim C4 -/

/-- Claim C4: the room-listing query returns exactly the names of rooms whose
member mapping has at least one connection — for every registry state, R is
listed iff some entry (R, m) with m ≠ [] is in the registry — and immediately
after the last member of R leaves (the cleanup path), R is absent from the
listing. -/
theorem C4_list_rooms_exact :
    (∀ (reg : Registry) (R : String),
        R ∈ list_rooms reg ↔ ∃ m, (R, m) ∈ reg ∧ m ≠ [])
    ∧ ∀ (reg : Registry) (R : String) (ws : Conn) (i : Identity) (fl fr : Conn → Bool),
        ddGet reg R = [(ws, i)] →
        R ∉ list_rooms (cleanup reg R ws fl fr).reg := by
  refine ⟨mem_list_rooms_iff, ?_⟩
  intro reg R ws i fl fr h hmem
  rw [cleanup_sole reg R ws i fl fr h] at hmem
  rcases (mem_list_rooms_iff _ _).mp hmem with ⟨m, hm, hne⟩
  rcases List.mem_append.mp hm with hm | hm
  · exact (mem_ddel hm).1 rfl
  · exact hne (congrArg Prod.snd (List.mem_singleton.mp hm))

/-- Witness for C4: a concrete one-member registry, listed before the leave
and absent after it. -/
theorem C4_list_rooms_exact_witness :
    ("a" ∈ list_rooms [("a", [(0, Identity.mk "n" "c")])]
      ↔ ∃ m, ("a", m) ∈ [("a", [(0, Identity.mk "n" "c")])] ∧ m ≠ [])
    ∧ "a" ∉ list_rooms (cleanup [("a", [(0, Identity.mk "n" "c")])] "a" 0
        (fun _ => false) (fun _ => false)).reg :=
  ⟨C4_list_rooms_exact.1 [("a", [(0, Identity.mk "n" "c")])] "a",
   C4_list_rooms_exact.2 [("a", [(0, Identity.mk "n" "c")])] "a" 0 (Identity.mk "n" "c")
     (fun _ => false) (fun _ => false) rfl⟩

/- ### Claim C9 -/

/-- Claim C9: when a client disconnects as the sole member of its room, the
cleanup leaves every other room's registry entry unchanged, and the departed
room no longer appears in the room listing. -/
theorem C9_cleanup_frame (reg : Registry) (room : String) (ws : Conn) (i : Identity)
    (fl fr : Conn → Bool) (h : ddGet reg room = [(ws, i)]) :
    (∀ r, r ≠ room → dget (cleanup reg room ws fl fr).reg r = dget reg r)
    ∧ room ∉ list_rooms (cleanup reg room ws fl fr).reg := by
  rw [cleanup_sole reg room ws i fl fr h]
  constructor
  · intro r hr
    cases hd : dget (ddel (dset reg room ([] : Members)) room) r with
    | some m =>
      rw [dget_append_some _ hd]
      rw [dget_ddel_ne _ _ _ hr, dget_dset_ne _ _ _ _ hr] at hd
      exact hd.symm
    | none =>
      rw [dget_append_none _ hd]
      rw [dget_ddel_ne _ _ _ hr, dget_dset_ne _ _ _ _ hr] at hd
      have hr2 : ¬ room = r := fun hh => hr hh.symm
      simp [dget, hr2, hd]
  · intro hmem
    rcases (mem_list_rooms_iff _ _).mp hmem with ⟨m, hm, hne⟩
    rcases List.mem_append.mp hm with hm | hm
    · exact (mem_ddel hm).1 rfl
    · exact hne (congrArg Prod.snd (List.mem_singleton.mp hm))

/-- Witness for C9: a two-room registry; the untouched room "other" keeps its
entry and the departed room "general" is unlisted. -/
theorem C9_cleanup_frame_witness :
    (dget (cleanup [("general", [(0, Identity.mk "n" "c")]), ("other", [(1, Identity.mk "m" "d")])]
          "general" 0 (fun _ => false) (fun _ => false)).reg "other"
        = dget [("general", [(0, Identity.mk "n" "c")]), ("other", [(1, Identity.mk "m" "d")])] "other")
    ∧ "general" ∉ list_rooms
        (cleanup [("general", [(0, Identity.mk "n" "c")]), ("other", [(1, Identity.mk "m" "d")])]
          "general" 0 (fun _ => false) (fun _ => false)).reg :=
  ⟨(C9_cleanup_frame
      [("general", [(0, Identity.mk "n" "c")]), ("other", [(1, Identity.mk "m" "d")])]
      "general" 0 (Identity.mk "n" "c") (fun _ => false) (fun _ => false) rfl).1
      "other" (by decide),
   (C9_cleanup_frame
      [("general", [(0, Identity.mk "n" "c")]), ("other", [(1, Identity.mk "m" "d")])]
      "general" 0 (Identity.mk "n" "c") (fun _ => false) (fun _ => false) rfl).2⟩

/- ### Lemmas about the relay loop -/

/-- The msg envelope constructed by the relay loop (app.py lines 239-241):
text truncated by `[:2000]`, sender identity looked up by
`rooms[room].get(websocket, info)`. -/
def relayMsg (reg : Registry) (room : String) (ws : Conn) (info : Identity)
    (s : String) : Envelope :=
  let sender := (dget (ddGet (ddEnsure reg room) room) ws).getD info
  .msg (.jstr (strTake s 2000)) sender.nick sender.color

theorem relayStep_msg_eq (reg : Registry) (room : String) (ws : Conn) (info : Identity)
    (data : String) (fails : Conn → Bool) (fields : List (String × JsonVal)) (s : String)
    (hty : dget fields "type" = some (JsonVal.jstr "msg"))
    (htx : dget fields "text" = some (JsonVal.jstr s)) :
    relayStep reg room ws info data (some (.jobj fields)) fails
      = .ok (broadcast (ddEnsure reg room) room (relayMsg reg room ws info s) fails).reg
            (broadcast (ddEnsure reg room) room (relayMsg reg room ws info s) fails).attempts
            (broadcast (ddEnsure reg room) room (relayMsg reg room ws info s) fails).sent := by
  simp only [relayStep, relayMsg, hty, htx, Option.getD_some, pySlice2000,
    eq_self_iff_true, if_true]

/- ### Claim C2 -/

/-- Claim C2 counterexample: the payload `"[]"` parses as JSON (an array),
i.e. it is an inbound payload that does not parse as the expected envelope
shape, yet the handler does not degrade it to a bare chat message:
`payload.get('type')` raises AttributeError on a non-dict, the exception
escapes the relay loop (modelled as `crash`), the outer handler runs the
cleanup and the session ends — the client is disconnected. -/
theorem C2_nonobject_payload_crashes :
    relayStep [("lobby", [(0, Identity.mk "Anon-0000" "hsl(0 70% 55%)")])] "lobby" 0
        (Identity.mk "Anon-0000" "hsl(0 70% 55%)") "[]" (some (.jarr []))
        (fun _ => false)
      = .crash [("lobby", [(0, Identity.mk "Anon-0000" "hsl(0 70% 55%)")])] := rfl

/-- Claim C2 amended: a payload on which `json.loads` raises (a genuine parse
failure) is treated as a bare chat message whose text is the raw payload
(truncated to 2000 characters like any chat text), and such a payload never
ends the relay loop; however a payload that parses as JSON to a non-object
value raises in the handler and terminates the session. -/
theorem C2_parse_failure_lenient (reg : Registry) (room : String) (ws : Conn)
    (info : Identity) (data : String) (fails : Conn → Bool) :
    (relayStep reg room ws info data none fails).isOk = true
    ∧ ∃ n c, ∀ p ∈ (relayStep reg room ws info data none fails).sentOf,
        p.2 = Envelope.msg (.jstr (strTake data 2000)) n c := by
  have hty : dget [("type", JsonVal.jstr "msg"), ("text", JsonVal.jstr data)] "type"
      = some (JsonVal.jstr "msg") := by simp [dget]
  have hne : ¬ ("type" : String) = "text" := by decide
  have htx : dget [("type", JsonVal.jstr "msg"), ("text", JsonVal.jstr data)] "text"
      = some (JsonVal.jstr data) := by simp [dget, hne]
  have hfb : relayStep reg room ws info data none fails
      = relayStep reg room ws info data
          (some (.jobj [("type", .jstr "msg"), ("text", .jstr data)])) fails := rfl
  rw [hfb, relayStep_msg_eq reg room ws info data fails _ data hty htx]
  exact ⟨rfl, ⟨_, _, broadcast_sent_all _ _ _ _⟩⟩

/-- Witness for the amended C2 on a concrete registry and payload. -/
theorem C2_parse_failure_lenient_witness :
    (relayStep [("lobby", [(0, Identity.mk "n" "c")])] "lobby" 0 (Identity.mk "n" "c")
        "hello" none (fun _ => false)).isOk = true
    ∧ ∃ n c, ∀ p ∈ (relayStep [("lobby", [(0, Identity.mk "n" "c")])] "lobby" 0
          (Identity.mk "n" "c") "hello" none (fun _ => false)).sentOf,
        p.2 = Envelope.msg (.jstr (strTake "hello" 2000)) n c :=
  C2_parse_failure_lenient [("lobby", [(0, Identity.mk "n" "c")])] "lobby" 0
    (Identity.mk "n" "c") "hello" (fun _ => false)

/- ### Claim C3 -/

/-- Claim C3: for an inbound msg envelope whose text is the string s, the
broadcast msg envelope carries s[:2000] — carrying exactly the first 2000
characters when s is longer than 2000 characters, and s unmodified when s has
at most 2000 characters. -/
theorem C3_truncation (reg : Registry) (room : String) (ws : Conn) (info : Identity)
    (data : String) (fails : Conn → Bool) (fields : List (String × JsonVal)) (s : String)
    (hty : dget fields "type" = some (JsonVal.jstr "msg"))
    (htx : dget fields "text" = some (JsonVal.jstr s)) :
    (relayStep reg room ws info data (some (.jobj fields)) fails).isOk = true
    ∧ (∃ n c, ∀ p ∈ (relayStep reg room ws info data (some (.jobj fields)) fails).sentOf,
        p.2 = Envelope.msg (.jstr (strTake s 2000)) n c)
    ∧ (strTake s 2000).data = s.data.take 2000
    ∧ (s.length ≤ 2000 → strTake s 2000 = s)
    ∧ (2000 < s.length → (strTake s 2000).length = 2000) := by
  rw [relayStep_msg_eq reg room ws info data fails fields s hty htx]
  refine ⟨rfl, ⟨_, _, broadcast_sent_all _ _ _ _⟩, rfl, ?_, ?_⟩
  · intro hle
    have hle' : s.data.length ≤ 2000 := hle
    unfold strTake
    rw [List.take_of_length_le hle']
  · intro hlt
    have hlt' : 2000 ≤ s.data.length := le_of_lt hlt
    show (s.data.take 2000).length = 2000
    rw [List.length_take]
    exact Nat.min_eq_left hlt'

/-- Witness for C3 at a short text ("hi", delivered unmodified) and a long
text (2001 copies of 'a', truncated to length 2000). -/
theorem C3_truncation_witness :
    ((relayStep [("lobby", [(0, Identity.mk "n" "c")])] "lobby" 0 (Identity.mk "n" "c") ""
        (some (.jobj [("type", .jstr "msg"), ("text", .jstr "hi")])) (fun _ => false)).isOk = true
      ∧ strTake "hi" 2000 = "hi")
    ∧ (strTake (String.mk (List.replicate 2001 'a')) 2000).length = 2000 := by
  constructor
  · constructor
    · exact (C3_truncation [("lobby", [(0, Identity.mk "n" "c")])] "lobby" 0
        (Identity.mk "n" "c") "" (fun _ => false)
        [("type", .jstr "msg"), ("text", .jstr "hi")] "hi" rfl rfl).1
    · exact (C3_truncation [("lobby", [(0, Identity.mk "n" "c")])] "lobby" 0
        (Identity.mk "n" "c") "" (fun _ => false)
        [("type", .jstr "msg"), ("text", .jstr "hi")] "hi" rfl rfl).2.2.2.1 (by decide)
  · refine (C3_truncation [("lobby", [(0, Identity.mk "n" "c")])] "lobby" 0
      (Identity.mk "n" "c") "" (fun _ => false)
      [("type", .jstr "msg"), ("text", .jstr (String.mk (List.replicate 2001 'a')))]
      (String.mk (List.replicate 2001 'a')) rfl rfl).2.2.2.2 ?_
    have hlen : (String.mk (List.replicate 2001 'a')).length
        = (List.replicate 2001 'a').length := rfl
    rw [hlen, List.length_replicate]
    norm_num

/- ### Claim C10 -/

/-- Claim C10 (implicit): the broadcast fan-out of a chat message does not
exclude the sender — every member connection of the room, the sending
connection included, has delivery attempted, and a sender whose own send
succeeds receives its own msg envelope back. -/
theorem C10_sender_included (reg : Registry) (room : String) (ws : Conn)
    (i info : Identity) (data : String) (fails : Conn → Bool)
    (fields : List (String × JsonVal)) (s : String)
    (hmem : (ws, i) ∈ ddGet reg room)
    (hty : dget fields "type" = some (JsonVal.jstr "msg"))
    (htx : dget fields "text" = some (JsonVal.jstr s)) :
    ws ∈ (relayStep reg room ws info data (some (.jobj fields)) fails).attemptsOf
    ∧ (fails ws = false → ∃ n c,
        (ws, Envelope.msg (.jstr (strTake s 2000)) n c)
          ∈ (relayStep reg room ws info data (some (.jobj fields)) fails).sentOf) := by
  rw [relayStep_msg_eq reg room ws info data fails fields s hty htx]
  have hin : ws ∈ (ddGet (ddEnsure reg room) room).map Prod.fst := by
    rw [ddGet_ddEnsure]
    exact List.mem_map.mpr ⟨(ws, i), hmem, rfl⟩
  constructor
  · show ws ∈ (broadcast (ddEnsure reg room) room (relayMsg reg room ws info s) fails).attempts
    rw [broadcast_attempts, ddGet_ddEnsure]
    exact List.mem_map.mpr ⟨(ws, i), hmem, rfl⟩
  · intro hf
    exact ⟨_, _, broadcast_mem_sent _ _ _ _ _ hin hf⟩

/-- Witness for C10: the sender (connection 0) receives its own message. -/
theorem C10_sender_included_witness :
    0 ∈ (relayStep [("lobby", [(0, Identity.mk "n" "c")])] "lobby" 0 (Identity.mk "n" "c") ""
        (some (.jobj [("type", .jstr "msg"), ("text", .jstr "hi")])) (fun _ => false)).attemptsOf
    ∧ ∃ n c, ((0 : Conn), Envelope.msg (.jstr (strTake "hi" 2000)) n c)
        ∈ (relayStep [("lobby", [(0, Identity.mk "n" "c")])] "lobby" 0 (Identity.mk "n" "c") ""
            (some (.jobj [("type", .jstr "msg"), ("text", .jstr "hi")])) (fun _ => false)).sentOf :=
  ⟨(C10_sender_included [("lobby", [(0, Identity.mk "n" "c")])] "lobby" 0
      (Identity.mk "n" "c") (Identity.mk "n" "c") "" (fun _ => false)
      [("type", .jstr "msg"), ("text", .jstr "hi")] "hi" (by decide) rfl rfl).1,
   (C10_sender_included [("lobby", [(0, Identity.mk "n" "c")])] "lobby" 0
      (Identity.mk "n" "c") (Identity.mk "n" "c") "" (fun _ => false)
      [("type", .jstr "msg"), ("text", .jstr "hi")] "hi" (by decide) rfl rfl).2 rfl⟩

/- ### Claim C5 -/

/-- Claim C5: during a broadcast to a room, every member connection's send is
attempted — one failed send does not abort delivery to the remaining members
of the snapshot — each failing connection is removed from the room's member
mapping, and the broadcast emits only the given envelope, so no leave system
notice is broadcast for a pruned connection. -/
theorem C5_broadcast_fault_isolation (reg : Registry) (room : String) (m : Envelope)
    (fails : Conn → Bool) (ws : Conn) (i : Identity)
    (hmem : (ws, i) ∈ ddGet reg room) :
    ws ∈ (broadcast reg room m fails).attempts
    ∧ (fails ws = false → (ws, m) ∈ (broadcast reg room m fails).sent)
    ∧ (fails ws = true → dget (ddGet (broadcast reg room m fails).reg room) ws = none)
    ∧ (∀ p ∈ (broadcast reg room m fails).sent, p.2 = m) := by
  have hin : ws ∈ (ddGet reg room).map Prod.fst := List.mem_map.mpr ⟨(ws, i), hmem, rfl⟩
  refine ⟨?_, fun hf => broadcast_mem_sent _ _ _ _ _ hin hf,
    fun hf => broadcast_removed _ _ _ _ _ hin hf, broadcast_sent_all _ _ _ _⟩
  rw [broadcast_attempts]
  exact hin

/-- Witness for C5: a two-member room where connection 1's send fails —
connection 0 is still attempted and delivered to, and connection 1 is removed
from the member mapping. -/
theorem C5_broadcast_fault_isolation_witness :
    (0 : Conn) ∈ (broadcast [("lobby", [(0, Identity.mk "n" "c"), (1, Identity.mk "m" "d")])]
        "lobby" (Envelope.rooms ["lobby"]) (fun w => w == 1)).attempts
    ∧ ((0 : Conn), Envelope.rooms ["lobby"])
        ∈ (broadcast [("lobby", [(0, Identity.mk "n" "c"), (1, Identity.mk "m" "d")])]
            "lobby" (Envelope.rooms ["lobby"]) (fun w => w == 1)).sent
    ∧ dget (ddGet (broadcast [("lobby", [(0, Identity.mk "n" "c"), (1, Identity.mk "m" "d")])]
          "lobby" (Envelope.rooms ["lobby"]) (fun w => w == 1)).reg "lobby") 1 = none :=
  ⟨(C5_broadcast_fault_isolation
      [("lobby", [(0, Identity.mk "n" "c"), (1, Identity.mk "m" "d")])]
      "lobby" (Envelope.rooms ["lobby"]) (fun w => w == 1) 0 (Identity.mk "n" "c")
      (by decide)).1,
   (C5_broadcast_fault_isolation
      [("lobby", [(0, Identity.mk "n" "c"), (1, Identity.mk "m" "d")])]
      "lobby" (Envelope.rooms ["lobby"]) (fun w => w == 1) 0 (Identity.mk "n" "c")
      (by decide)).2.1 rfl,
   (C5_broadcast_fault_isolation
      [("lobby", [(0, Identity.mk "n" "c"), (1, Identity.mk "m" "d")])]
      "lobby" (Envelope.rooms ["lobby"]) (fun w => w == 1) 1 (Identity.mk "m" "d")
      (by decide)).2.2.1 rfl⟩

/- ### Claim C6 -/

theorem joinStep_empty_room (reg : Registry) (q : Option String) (ws : Conn)
    (b1 b2 hue : Nat) (fj fr : Conn → Bool)
    (hEmpty : ddGet reg (resolveRoom q) = [])
    (hfj : fj ws = false) (hfr : fr ws = false) :
    joinStep reg q ws b1 b2 hue fj fr
      = ⟨dset (ddEnsure reg (resolveRoom q)) (resolveRoom q) [(ws, mkIdentity b1 b2 hue)],
         resolveRoom q, mkIdentity b1 b2 hue,
         [(ws, .meta (mkIdentity b1 b2 hue)),
          (ws, .system ((mkIdentity b1 b2 hue).nick ++ " joined.") "System" "#666" "join"),
          (ws, .rooms (list_rooms (dset (ddEnsure reg (resolveRoom q)) (resolveRoom q)
              [(ws, mkIdentity b1 b2 hue)])))]⟩ := by
  have hGet1 : ddGet (dset (ddEnsure reg (resolveRoom q)) (resolveRoom q)
      [(ws, mkIdentity b1 b2 hue)]) (resolveRoom q) = [(ws, mkIdentity b1 b2 hue)] :=
    ddGet_eq_of_dget (dget_dset_self _ _ _)
  have hens1 : ddEnsure (dset (ddEnsure reg (resolveRoom q)) (resolveRoom q)
      [(ws, mkIdentity b1 b2 hue)]) (resolveRoom q)
      = dset (ddEnsure reg (resolveRoom q)) (resolveRoom q) [(ws, mkIdentity b1 b2 hue)] :=
    ddEnsure_of_isSome (by rw [dget_dset_self]; rfl)
  have hreg : registerConn reg (resolveRoom q) ws (mkIdentity b1 b2 hue)
      = dset (ddEnsure reg (resolveRoom q)) (resolveRoom q) [(ws, mkIdentity b1 b2 hue)] := by
    simp only [registerConn, ddGet_ddEnsure, hEmpty]
    rfl
  have hbj := broadcast_single (dset (ddEnsure reg (resolveRoom q)) (resolveRoom q)
      [(ws, mkIdentity b1 b2 hue)]) (resolveRoom q)
      (.system ((mkIdentity b1 b2 hue).nick ++ " joined.") "System" "#666" "join") fj
      ws (mkIdentity b1 b2 hue) hGet1 hfj
  have hbr := broadcast_single (dset (ddEnsure reg (resolveRoom q)) (resolveRoom q)
      [(ws, mkIdentity b1 b2 hue)]) (resolveRoom q)
      (.rooms (list_rooms (dset (ddEnsure reg (resolveRoom q)) (resolveRoom q)
          [(ws, mkIdentity b1 b2 hue)]))) fr
      ws (mkIdentity b1 b2 hue) hGet1 hfr
  simp only [joinStep, hreg, hbj, hens1, hbr, List.cons_append, List.nil_append]

/-- Hex characters produced by the nickname generator are hex digits. -/
theorem hexDigit_mem_hexChars (n : Nat) (h : n < 16) :
    hexDigit n ∈ ("0123456789abcdef").data := by
  have key : ∀ x : Fin 16, hexDigit x.val ∈ ("0123456789abcdef").data := by decide
  exact key ⟨n, h⟩

/-- Claim C6: a client joining a room with no existing members receives, in
order: first a meta envelope with its own identity — whose nick is "Anon-"
followed by four hex digits and whose color is an hsl string — then the join
system notice "<nick> joined.", then a rooms envelope whose list contains the
joined room. -/
theorem C6_join_sequence (reg : Registry) (q : Option String) (ws : Conn)
    (b1 b2 hue : Nat) (fj fr : Conn → Bool)
    (hEmpty : ddGet reg (resolveRoom q) = [])
    (hfj : fj ws = false) (hfr : fr ws = false) :
    ∃ rl, resolveRoom q ∈ rl
    ∧ ((joinStep reg q ws b1 b2 hue fj fr).sent.filter
          (fun p => p.1 == ws)).map Prod.snd
        = [.meta (joinStep reg q ws b1 b2 hue fj fr).info,
           .system ((joinStep reg q ws b1 b2 hue fj fr).info.nick ++ " joined.")
             "System" "#666" "join",
           .rooms rl]
    ∧ (∃ suffix : String,
        (joinStep reg q ws b1 b2 hue fj fr).info.nick = "Anon-" ++ suffix
        ∧ suffix.data.length = 4
        ∧ ∀ ch ∈ suffix.data, ch ∈ ("0123456789abcdef").data)
    ∧ (∃ hdeg, hdeg < 360
        ∧ (joinStep reg q ws b1 b2 hue fj fr).info.color
            = "hsl(" ++ toString hdeg ++ " 70% 55%)") := by
  rw [joinStep_empty_room reg q ws b1 b2 hue fj fr hEmpty hfj hfr]
  refine ⟨list_rooms (dset (ddEnsure reg (resolveRoom q)) (resolveRoom q)
      [(ws, mkIdentity b1 b2 hue)]), ?_, ?_, ?_, ?_⟩
  · exact (mem_list_rooms_iff _ _).mpr
      ⟨[(ws, mkIdentity b1 b2 hue)], mem_dset_self _ _ _, by simp⟩
  · simp
  · refine ⟨token_hex2 b1 b2, rfl, by simp [token_hex2, hexByte], ?_⟩
    intro ch hch
    simp [token_hex2, hexByte] at hch
    rcases hch with rfl | rfl | rfl | rfl
    · exact hexDigit_mem_hexChars _ (Nat.mod_lt _ (by norm_num))
    · exact hexDigit_mem_hexChars _ (Nat.mod_lt _ (by norm_num))
    · exact hexDigit_mem_hexChars _ (Nat.mod_lt _ (by norm_num))
    · exact hexDigit_mem_hexChars _ (Nat.mod_lt _ (by norm_num))
  · exact ⟨hue % 360, Nat.mod_lt _ (by norm_num), rfl⟩

/-- Witness for C6: connection 0 joins the empty room "general". -/
theorem C6_join_sequence_witness :
    ∃ rl, resolveRoom (some "general") ∈ rl
    ∧ ((joinStep [] (some "general") 0 0 0 0 (fun _ => false) (fun _ => false)).sent.filter
          (fun p => p.1 == 0)).map Prod.snd
        = [.meta (joinStep [] (some "general") 0 0 0 0 (fun _ => false) (fun _ => false)).info,
           .system ((joinStep [] (some "general") 0 0 0 0
               (fun _ => false) (fun _ => false)).info.nick ++ " joined.")
             "System" "#666" "join",
           .rooms rl]
    ∧ (∃ suffix : String,
        (joinStep [] (some "general") 0 0 0 0
            (fun _ => false) (fun _ => false)).info.nick = "Anon-" ++ suffix
        ∧ suffix.data.length = 4
        ∧ ∀ ch ∈ suffix.data, ch ∈ ("0123456789abcdef").data)
    ∧ (∃ hdeg, hdeg < 360
        ∧ (joinStep [] (some "general") 0 0 0 0
              (fun _ => false) (fun _ => false)).info.color
            = "hsl(" ++ toString hdeg ++ " 70% 55%)") :=
  C6_join_sequence [] (some "general") 0 0 0 0 (fun _ => false) (fun _ => false) rfl rfl rfl

/- ### Claim C7 -/

/-- Claim C7 counterexample: the code performs no nickname-uniqueness check.
When the random generator returns the same two bytes (11, 22) for two
different connections joining room "a", both connections are live members
holding the identical identity, in particular the same nickname
"Anon-0b16" — so the claim's "for every outcome of the random generator"
universal is false. -/
theorem C7_duplicate_nick_counterexample :
    dget (ddGet (joinStep
          (joinStep [] (some "a") 0 11 22 33 (fun _ => false) (fun _ => false)).reg
          (some "a") 1 11 22 33 (fun _ => false) (fun _ => false)).reg "a") 0
        = some (mkIdentity 11 22 33)
    ∧ dget (ddGet (joinStep
          (joinStep [] (some "a") 0 11 22 33 (fun _ => false) (fun _ => false)).reg
          (some "a") 1 11 22 33 (fun _ => false) (fun _ => false)).reg "a") 1
        = some (mkIdentity 11 22 33)
    ∧ (0 : Conn) ≠ 1 := by
  refine ⟨by decide, by decide, by decide⟩

/-- The hex digit map is injective below 16. -/
theorem hexDigit_inj (a b : Nat) (ha : a < 16) (hb : b < 16)
    (h : hexDigit a = hexDigit b) : a = b := by
  have key : ∀ x y : Fin 16, hexDigit x.val = hexDigit y.val → x = y := by decide
  exact congrArg Fin.val (key ⟨a, ha⟩ ⟨b, hb⟩ h)

/-- Claim C7 amended: nicknames are determined by the generator's two random
bytes; two joins whose byte pairs differ receive distinct nicknames, but the
code has no uniqueness check, so a repeated byte pair yields duplicate live
nicknames (see the counterexample). -/
theorem C7_distinct_tokens_distinct_nicks (b1 b2 hue b1' b2' hue' : Nat)
    (h1 : b1 < 256) (h2 : b2 < 256) (h1' : b1' < 256) (h2' : b2' < 256)
    (hne : b1 ≠ b1' ∨ b2 ≠ b2') :
    (mkIdentity b1 b2 hue).nick ≠ (mkIdentity b1' b2' hue').nick := by
  intro heq
  have hdata : ("Anon-" ++ token_hex2 b1 b2).data = ("Anon-" ++ token_hex2 b1' b2').data :=
    congrArg String.data heq
  have happ : ∀ s t : String, (s ++ t).data = s.data ++ t.data := fun s t => rfl
  rw [happ, happ] at hdata
  have hlist := List.append_cancel_left hdata
  simp only [token_hex2, hexByte, List.cons_append, List.nil_append,
    List.cons.injEq, and_true] at hlist
  obtain ⟨e1, e2, e3, e4⟩ := hlist
  have q1 := hexDigit_inj _ _ (Nat.mod_lt _ (by norm_num)) (Nat.mod_lt _ (by norm_num)) e1
  have q2 := hexDigit_inj _ _ (Nat.mod_lt _ (by norm_num)) (Nat.mod_lt _ (by norm_num)) e2
  have q3 := hexDigit_inj _ _ (Nat.mod_lt _ (by norm_num)) (Nat.mod_lt _ (by norm_num)) e3
  have q4 := hexDigit_inj _ _ (Nat.mod_lt _ (by norm_num)) (Nat.mod_lt _ (by norm_num)) e4
  rcases hne with hne | hne
  · exact hne (by omega)
  · exact hne (by omega)

/-- Witness for the amended C7: byte pairs (0,0) and (0,1) give distinct
nicknames. -/
theorem C7_distinct_tokens_distinct_nicks_witness :
    (mkIdentity 0 0 0).nick ≠ (mkIdentity 0 1 0).nick :=
  C7_distinct_tokens_distinct_nicks 0 0 0 0 1 0 (by decide) (by decide) (by decide)
    (by decide) (Or.inr (by decide))

end AnonChat
